import Mathlib

/-!
# Verification of the unemployment-analysis application

A shallow embedding of `src/main.py`: a single-file pandas/tkinter program
that loads a labor-statistics CSV, cleans it (`clean_data`), and exposes
GUI handlers for summary statistics, four plots, and a CSV export.

The dataframe model is a list of column names together with rows of cells,
each cell being a missing value marker, a string, a rational number, or a
parsed date.  Library calls whose internals live outside the repository
(`pd.to_datetime` on one entry, `DataFrame.describe`, `Series.dt.to_period`,
`DataFrame.corr`) are oracle parameters of the embedded functions; every
piece of control flow and data flow of the repository itself is embedded
faithfully.
-/

/-- A single dataframe cell: missing (NaN/NaT), a string, a rational
number, or a parsed datetime (represented by an abstract ordinal). -/
inductive Cell where
  | na : Cell
  | str : String → Cell
  | num : Rat → Cell
  | date : Nat → Cell
deriving DecidableEq, Repr

/-- A dataframe: column labels plus rows of cells, each row aligned with
the labels positionally. -/
structure DF where
  cols : List String
  rows : List (List Cell)
deriving DecidableEq, Repr

namespace DF

/-- Index of the first column with the given label, if present
(`df.columns.get_loc`). -/
def idxOf : List String → String → Option Nat
  | [], _ => none
  | c :: cs, x => if c = x then some 0 else (idxOf cs x).map (· + 1)

/-- The cell of row `r` in column `c` of a dataframe with labels `cols`;
missing columns and short rows read as missing values. -/
def cellAt (cols : List String) (c : String) (r : List Cell) : Cell :=
  match idxOf cols c with
  | some i => r.getD i Cell.na
  | none => Cell.na

/-- Column access `df[c]` as the list of that column's cells. -/
def getCol (df : DF) (c : String) : List Cell :=
  df.rows.map (cellAt df.cols c)

/-- In-place columnwise update `df[c] = df[c].map f`; a no-op when the
column is absent (in the embedded code the column always exists). -/
def mapCol (df : DF) (c : String) (f : Cell → Cell) : DF :=
  match idxOf df.cols c with
  | some i => { df with rows := df.rows.map (fun r => r.set i (f (r.getD i Cell.na))) }
  | none => df

/-- `df.dropna(subset=sub)`: keep exactly the rows whose cells in every
column of `sub` are non-missing. -/
def dropnaSubset (df : DF) (sub : List String) : DF :=
  { df with rows := df.rows.filter (fun r => sub.all (fun c => cellAt df.cols c r ≠ Cell.na)) }

/-- `Series.mean()`: the mean of the numeric, non-missing entries of a
column; missing (`NaN`) when there are none, as in pandas. -/
def colMean (cells : List Cell) : Cell :=
  let nums := cells.filterMap (fun c => match c with | Cell.num q => some q | _ => none)
  match nums with
  | [] => Cell.na
  | _ => Cell.num (nums.foldr (· + ·) 0 / (nums.length : Rat))

/-- `Series.fillna(v)` on one cell: missing entries become `v` (filling
with a missing value, as pandas allows, leaves the entry missing). -/
def fillnaWith (v : Cell) (c : Cell) : Cell :=
  if c = Cell.na then v else c

end DF

/-! ## `clean_data` (src/main.py lines 33-55) -/

namespace Main

open DF

/-- Python `str.strip()`: remove leading and trailing whitespace
characters, modelled on the string's character list. -/
def strip (s : String) : String :=
  String.mk (((s.data.dropWhile Char.isWhitespace).reverse.dropWhile Char.isWhitespace).reverse)

/-- `[col.strip() for col in data.columns]`: strip whitespace around every
column label. -/
def stripCols (df : DF) : DF :=
  { df with cols := df.cols.map strip }

/-- The label mapping of the `data.rename(columns={...})` call. -/
def renameLabel (c : String) : String :=
  if c = "Region" then "State"
  else if c = "Estimated Unemployment Rate (%)" then "Estimated Unemployment Rate"
  else if c = "Estimated Labour Participation Rate (%)" then "Estimated Labour Participation Rate"
  else if c = "Area" then "Region"
  else c

/-- `data.rename(columns={...})` applied to every label. -/
def renameCols (df : DF) : DF :=
  { df with cols := df.cols.map renameLabel }

/-- The column check list of `clean_data`. -/
def expected_columns : List String :=
  ["State", "Date", "Frequency", "Estimated Unemployment Rate",
   "Estimated Employed", "Estimated Labour Participation Rate", "Region"]

/-- `pd.to_datetime(one cell, errors="coerce")`: the library's parser is
the oracle `parseDate`; an unparseable entry becomes missing (`NaT`). -/
def coerceDate (parseDate : Cell → Option Nat) (c : Cell) : Cell :=
  match parseDate c with
  | some d => Cell.date d
  | none => Cell.na

/-- Lines 35-42 of `clean_data`: strip every label, then rename. -/
def cleanStage1 (df : DF) : DF :=
  renameCols (stripCols df)

/-- Line 51: `data["Date"] = pd.to_datetime(data["Date"], errors="coerce")`. -/
def cleanDates (parseDate : Cell → Option Nat) (df : DF) : DF :=
  df.mapCol "Date" (coerceDate parseDate)

/-- Line 52: `data = data.dropna(subset=["State", "Date", "Estimated
Unemployment Rate"])`. -/
def cleanDrop (df : DF) : DF :=
  df.dropnaSubset ["State", "Date", "Estimated Unemployment Rate"]

/-- Line 53: `data["Estimated Employed"] = data["Estimated
Employed"].fillna(0)`. -/
def cleanFillEmployed (df : DF) : DF :=
  df.mapCol "Estimated Employed" (fillnaWith (Cell.num 0))

/-- Line 54: fill missing `Estimated Labour Participation Rate` entries
with that column's mean. -/
def cleanFillELPR (df : DF) : DF :=
  df.mapCol "Estimated Labour Participation Rate"
    (fillnaWith (colMean (df.getCol "Estimated Labour Participation Rate")))

/-- `clean_data` (src/main.py lines 33-55): strip labels, rename, validate
the seven expected columns (`None` on failure), coerce `Date`, drop rows
with missing `State`/`Date`/`Estimated Unemployment Rate`, fill missing
`Estimated Employed` with 0 and missing `Estimated Labour Participation
Rate` with the column mean. -/
def clean_data (parseDate : Cell → Option Nat) (df : DF) : Option DF :=
  let d1 := cleanStage1 df
  if expected_columns.all (fun c => d1.cols.contains c) then
    some (cleanFillELPR (cleanFillEmployed (cleanDrop (cleanDates parseDate d1))))
  else none

end Main

/-! ## Further dataframe operations used by the GUI handlers -/

namespace DF

/-- Column assignment `df[c] = vals`: overwrite the column when the label
exists, otherwise append a new column (as pandas does). -/
def setCol (df : DF) (c : String) (vals : List Cell) : DF :=
  match idxOf df.cols c with
  | some i => { df with rows := List.zipWith (fun r v => r.set i v) df.rows vals }
  | none => { cols := df.cols ++ [c], rows := List.zipWith (fun r v => r ++ [v]) df.rows vals }

/-- Boolean-mask row selection `df[df[c] == v]` for a string scalar `v`:
keep exactly the rows whose cell in column `c` is the string `v`. -/
def filterEq (df : DF) (c : String) (v : String) : DF :=
  { df with rows := df.rows.filter (fun r => decide (cellAt df.cols c r = Cell.str v)) }

/-- Total comparison used to model `sort_values` ordering: numbers by
value, then dates, then strings, with missing values last (pandas puts
`NaN` last). -/
def cellRank : Cell → Nat
  | Cell.num _ => 0
  | Cell.date _ => 1
  | Cell.str _ => 2
  | Cell.na => 3

/-- The sort key order on cells (ascending, missing last). -/
def cellLe (a b : Cell) : Bool :=
  match a, b with
  | Cell.num x, Cell.num y => decide (x ≤ y)
  | Cell.date x, Cell.date y => decide (x ≤ y)
  | Cell.str x, Cell.str y => decide (x ≤ y)
  | x, y => decide (cellRank x ≤ cellRank y)

/-- `df.sort_values(by=c)`: rows reordered ascending by the cell in
column `c`. -/
def sortValuesBy (df : DF) (c : String) : DF :=
  let sorted := List.insertionSort
    (fun r1 r2 => cellLe (cellAt df.cols c r1) (cellAt df.cols c r2) = true) df.rows
  { df with rows := sorted }

/-- Greatest element of a list of naturals, `none` when empty. -/
def natMax? : List Nat → Option Nat
  | [] => none
  | n :: ns =>
    match natMax? ns with
    | none => some n
    | some m => some (Nat.max n m)

/-- `df[c].max()` on a datetime column: greatest parsed date, skipping
missing values; `none` when there is no date (pandas `NaT`). -/
def dateMax (df : DF) (c : String) : Option Nat :=
  natMax? ((df.getCol c).filterMap (fun cell => match cell with | Cell.date n => some n | _ => none))

/-- `df[[cs]]`: sub-dataframe of the listed columns. -/
def selectCols (df : DF) (cs : List String) : DF :=
  { cols := cs, rows := df.rows.map (fun r => cs.map (fun c => cellAt df.cols c r)) }

/-- `df.pivot_table(index, columns, values)` with the default `aggfunc`:
for every distinct index value and every distinct column value, the mean
of the `values` cells of the matching rows. -/
def pivot_table (df : DF) (index cols values : String) : List (Cell × List (Cell × Cell)) :=
  ((df.getCol index).dedup).map (fun i =>
    (i, ((df.getCol cols).dedup).map (fun c =>
      (c, colMean ((df.rows.filter (fun r =>
            decide (cellAt df.cols index r = i) && decide (cellAt df.cols cols r = c))).map
          (cellAt df.cols values))))))

end DF

/-! ## The GUI handlers (src/main.py lines 59-144)

Each handler is embedded as a pure function from the application state
`app_data : Option DF` (plus the dropdown selections, dialog results and
library-call oracles it consults) to the list of observable effects it
performs and the application state it leaves behind. -/

/-- A rendered figure: what the repository hands to the plotting library. -/
inductive Plot where
  | line : String → List (List Cell) → Plot
  | bar : String → List (List Cell) → Plot
  | heatmap : String → List (Cell × List (Cell × Cell)) → Plot
  | corrHeatmap : String → DF → Plot
deriving DecidableEq

/-- An observable effect of a handler: a message box, a figure shown in
the GUI, or a file written to disk. -/
inductive Effect where
  | showInfo : String → String → Effect
  | showInfoDF : String → DF → Effect
  | showWarning : String → String → Effect
  | showError : String → String → Effect
  | renderPlot : Plot → Effect
  | writeFile : String → DF → Effect
deriving DecidableEq

namespace Main

open DF

/-- `show_summary` (lines 59-64): message box with `app_data.describe()`
(the statistics library call is the oracle `describe`), or a warning when
no data is loaded. -/
def show_summary (describe : DF → DF) (app_data : Option DF) :
    List Effect × Option DF :=
  match app_data with
  | some d => ([Effect.showInfoDF "Summary" (describe d)], some d)
  | none => ([Effect.showWarning "Warning" "No data loaded."], none)

/-- The row selection of `plot_unemployment_by_region` (line 70):
everything for `"All"`, otherwise the rows whose `Region` equals the
selected value. -/
def regionFilter (df : DF) (selected_region : String) : DF :=
  if selected_region = "All" then df else filterEq df "Region" selected_region

/-- `plot_unemployment_by_region` (lines 67-81): line chart of the
region-filtered rows, or a warning when no data is loaded. -/
def plot_unemployment_by_region (app_data : Option DF) (selected_region : String) :
    List Effect × Option DF :=
  match app_data with
  | some d =>
    ([Effect.renderPlot (Plot.line
        ("Unemployment Rate Over Time by Region: " ++ selected_region)
        (regionFilter d selected_region).rows)], some d)
  | none => ([Effect.showWarning "Warning" "No data loaded."], none)

/-- `app_data[app_data['Date'] == app_data['Date'].max()]` (line 87): the
rows carrying the greatest date of the whole dataset; no rows when the
column has no parsed date (comparison with `NaT` is everywhere false). -/
def latestRows (df : DF) : DF :=
  match dateMax df "Date" with
  | some m => { df with rows := df.rows.filter (fun r => decide (cellAt df.cols "Date" r = Cell.date m)) }
  | none => { df with rows := [] }

/-- `plot_latest_unemployment_by_state` (lines 84-103): bar chart of the
latest-date rows, state-filtered, sorted ascending by the unemployment
rate; or a warning when no data is loaded. -/
def plot_latest_unemployment_by_state (app_data : Option DF) (selected_state : String) :
    List Effect × Option DF :=
  match app_data with
  | some d =>
    let latest := latestRows d
    let filtered := if selected_state = "All" then latest else filterEq latest "State" selected_state
    ([Effect.renderPlot (Plot.bar
        ("Latest Unemployment Rate by State: " ++ selected_state)
        (sortValuesBy filtered "Estimated Unemployment Rate").rows)], some d)
  | none => ([Effect.showWarning "Warning" "No data loaded."], none)

/-- Lines 108-109: `monthly = app_data.copy(); monthly['Month'] =
monthly['Date'].dt.to_period('M')`, the period extraction being the
library-call oracle `toMonth`. -/
def withMonth (toMonth : Cell → Cell) (df : DF) : DF :=
  setCol df "Month" ((df.getCol "Date").map toMonth)

/-- `plot_monthly_unemployment_heatmap` (lines 106-119): heatmap of the
State-by-Month pivot of the unemployment rate, computed on a copy of the
loaded data; or a warning when no data is loaded. -/
def plot_monthly_unemployment_heatmap (toMonth : Cell → Cell) (app_data : Option DF) :
    List Effect × Option DF :=
  match app_data with
  | some d =>
    let monthly := withMonth toMonth d
    ([Effect.renderPlot (Plot.heatmap
        "📅 Monthly Unemployment Rate by State (Annotated)"
        (pivot_table monthly "State" "Month" "Estimated Unemployment Rate"))], some d)
  | none => ([Effect.showWarning "Warning" "No data loaded."], none)

/-- `plot_correlation_matrix` (lines 122-134): heatmap of the correlation
matrix (library-call oracle `corr`) of the three numeric columns; or a
warning when no data is loaded. -/
def plot_correlation_matrix (corr : DF → DF) (app_data : Option DF) :
    List Effect × Option DF :=
  match app_data with
  | some d =>
    ([Effect.renderPlot (Plot.corrHeatmap
        "📊 Correlation Matrix of Employment Metrics"
        (corr (selectCols d ["Estimated Unemployment Rate", "Estimated Employed",
                             "Estimated Labour Participation Rate"])))], some d)
  | none => ([Effect.showWarning "Warning" "No data loaded."], none)

/-- `export_summary` (lines 136-144): write `app_data.describe()` to the
path chosen in the save dialog (`savePath = none` models a cancelled
dialog, in which case nothing happens); or a warning when no data is
loaded. -/
def export_summary (describe : DF → DF) (app_data : Option DF) (savePath : Option String) :
    List Effect × Option DF :=
  match app_data with
  | some d =>
    let summary := describe d
    match savePath with
    | some p =>
      ([Effect.writeFile p summary, Effect.showInfo "Export" ("Summary exported to " ++ p)], some d)
    | none => ([], some d)
  | none => ([Effect.showWarning "Warning" "No data loaded."], none)

end Main

/-! ## Basic lemmas about the dataframe model -/

namespace DF

/-- Rectangularity: every row has exactly one cell per column.  Dataframes
read from a CSV are rectangular; pandas maintains this invariant. -/
def Wf (df : DF) : Prop :=
  ∀ r ∈ df.rows, r.length = df.cols.length

instance (df : DF) : Decidable df.Wf := by
  unfold Wf; infer_instance

theorem idxOf_lt_length {cols : List String} {c : String} {i : Nat}
    (h : idxOf cols c = some i) : i < cols.length := by
  induction cols generalizing i with
  | nil => simp [idxOf] at h
  | cons a as ih =>
    by_cases ha : a = c
    · have h0 : 0 = i := by simpa [idxOf, ha] using h
      subst h0
      simp
    · simp only [idxOf, if_neg ha, Option.map_eq_some'] at h
      obtain ⟨j, hj, rfl⟩ := h
      have := ih hj
      simp only [List.length_cons]
      omega

theorem idxOf_getElem {cols : List String} {c : String} {i : Nat}
    (h : idxOf cols c = some i) : cols[i]? = some c := by
  induction cols generalizing i with
  | nil => simp [idxOf] at h
  | cons a as ih =>
    by_cases ha : a = c
    · simp [idxOf, ha] at h
      subst h
      simp [ha]
    · simp only [idxOf, if_neg ha, Option.map_eq_some'] at h
      obtain ⟨j, hj, rfl⟩ := h
      simpa using ih hj

theorem idxOf_inj {cols : List String} {c₁ c₂ : String} {i j : Nat}
    (h₁ : idxOf cols c₁ = some i) (h₂ : idxOf cols c₂ = some j)
    (hne : c₁ ≠ c₂) : i ≠ j := by
  intro hij
  subst hij
  have e₁ := idxOf_getElem h₁
  have e₂ := idxOf_getElem h₂
  rw [e₁] at e₂
  exact hne (Option.some.inj e₂)

theorem idxOf_isSome_of_mem {cols : List String} {c : String} (h : c ∈ cols) :
    ∃ i, idxOf cols c = some i := by
  induction cols with
  | nil => simp at h
  | cons a as ih =>
    by_cases ha : a = c
    · exact ⟨0, by simp [idxOf, ha]⟩
    · have : c ∈ as := by
        rcases List.mem_cons.mp h with h' | h'
        · exact absurd h'.symm ha
        · exact h'
      obtain ⟨i, hi⟩ := ih this
      exact ⟨i + 1, by simp [idxOf, ha, hi]⟩

theorem idxOf_eq_none_of_not_mem {cols : List String} {c : String} (h : c ∉ cols) :
    idxOf cols c = none := by
  induction cols with
  | nil => rfl
  | cons a as ih =>
    have ha : a ≠ c := fun e => h (e ▸ List.mem_cons_self a as)
    have has : c ∉ as := fun e => h (List.mem_cons_of_mem _ e)
    simp [idxOf, ha, ih has]

theorem mapCol_cols (df : DF) (c : String) (f : Cell → Cell) :
    (mapCol df c f).cols = df.cols := by
  unfold mapCol
  cases idxOf df.cols c <;> rfl

theorem dropnaSubset_cols (df : DF) (sub : List String) :
    (dropnaSubset df sub).cols = df.cols := rfl

theorem filterEq_cols (df : DF) (c v : String) :
    (filterEq df c v).cols = df.cols := rfl

theorem sortValuesBy_cols (df : DF) (c : String) :
    (sortValuesBy df c).cols = df.cols := rfl

theorem mem_rows_mapCol {df : DF} {c : String} {f : Cell → Cell} {i : Nat}
    (hidx : idxOf df.cols c = some i) {r' : List Cell}
    (h : r' ∈ (mapCol df c f).rows) :
    ∃ r ∈ df.rows, r' = r.set i (f (r.getD i Cell.na)) := by
  unfold mapCol at h
  rw [hidx] at h
  obtain ⟨r, hr, he⟩ := List.mem_map.mp h
  exact ⟨r, hr, he.symm⟩

theorem cellAt_set_ne {cols : List String} {c c' : String} {i j : Nat}
    (_hi : idxOf cols c = some i) (hj : idxOf cols c' = some j) (hne : j ≠ i)
    (r : List Cell) (v : Cell) :
    cellAt cols c' (r.set i v) = cellAt cols c' r := by
  unfold cellAt
  rw [hj]
  simp [List.getD_eq_getElem?_getD, List.getElem?_set_ne hne.symm]

theorem cellAt_set_self_cases {cols : List String} {c : String} {i : Nat}
    (hi : idxOf cols c = some i) (r : List Cell) (v : Cell) :
    cellAt cols c (r.set i v) = v ∨ cellAt cols c (r.set i v) = Cell.na := by
  unfold cellAt
  rw [hi]
  by_cases hlen : i < r.length
  · left
    simp [List.getD_eq_getElem?_getD, List.getElem?_set_self hlen]
  · right
    have hs : r.set i v = r := List.set_eq_of_length_le (by omega)
    have hn : r[i]? = none := List.getElem?_eq_none (by omega)
    rw [hs]
    simp [List.getD_eq_getElem?_getD, hn]

theorem cellAt_set_self {cols : List String} {c : String} {i : Nat}
    (hi : idxOf cols c = some i) {r : List Cell} (hlen : i < r.length) (v : Cell) :
    cellAt cols c (r.set i v) = v := by
  unfold cellAt
  rw [hi]
  simp [List.getD_eq_getElem?_getD, List.getElem?_set_self hlen]

theorem cellAt_eq_getD {cols : List String} {c : String} {i : Nat}
    (hi : idxOf cols c = some i) (r : List Cell) :
    cellAt cols c r = r.getD i Cell.na := by
  unfold cellAt
  rw [hi]

theorem mapCol_rows {df : DF} {c : String} {i : Nat} (hidx : idxOf df.cols c = some i)
    (f : Cell → Cell) :
    (mapCol df c f).rows = df.rows.map (fun r => r.set i (f (r.getD i Cell.na))) := by
  unfold mapCol
  rw [hidx]

theorem wf_mapCol {df : DF} (hwf : df.Wf) (c : String) (f : Cell → Cell) :
    (mapCol df c f).Wf := by
  intro r hr
  rw [mapCol_cols]
  unfold mapCol at hr
  cases hidx : idxOf df.cols c with
  | none => rw [hidx] at hr; exact hwf r hr
  | some i =>
    rw [hidx] at hr
    obtain ⟨r₀, hr₀, he⟩ := List.mem_map.mp hr
    rw [← he, List.length_set]
    exact hwf r₀ hr₀

theorem wf_dropnaSubset {df : DF} (hwf : df.Wf) (sub : List String) :
    (dropnaSubset df sub).Wf := by
  intro r hr
  exact hwf r (List.mem_filter.mp hr).1

theorem getCol_mapCol_self {df : DF} {c : String} {i : Nat}
    (hidx : idxOf df.cols c = some i) (hlen : ∀ r ∈ df.rows, i < r.length)
    (f : Cell → Cell) :
    (mapCol df c f).getCol c = (df.getCol c).map f := by
  unfold getCol
  rw [mapCol_cols, mapCol_rows hidx, List.map_map, List.map_map]
  apply List.map_congr_left
  intro r hr
  simp only [Function.comp]
  rw [cellAt_set_self hidx (hlen r hr), cellAt_eq_getD hidx]

theorem getCol_mapCol_ne {df : DF} {c c' : String} (hne : c ≠ c')
    (f : Cell → Cell) :
    (mapCol df c f).getCol c' = df.getCol c' := by
  unfold getCol
  rw [mapCol_cols]
  cases hidx : idxOf df.cols c with
  | none => unfold mapCol; rw [hidx]
  | some i =>
    rw [mapCol_rows hidx, List.map_map]
    apply List.map_congr_left
    intro r hr
    simp only [Function.comp]
    cases hidx' : idxOf df.cols c' with
    | none => unfold cellAt; rw [hidx']
    | some j =>
      exact cellAt_set_ne hidx hidx' (idxOf_inj hidx' hidx (Ne.symm hne)) r _

theorem colMean_ne_na_of_num {l : List Cell} {q : Rat} (h : Cell.num q ∈ l) :
    colMean l ≠ Cell.na := by
  unfold colMean
  have hq : q ∈ l.filterMap (fun c => match c with | Cell.num x => some x | _ => none) :=
    List.mem_filterMap.mpr ⟨Cell.num q, h, rfl⟩
  cases hn : l.filterMap (fun c => match c with | Cell.num x => some x | _ => none) with
  | nil => rw [hn] at hq; simp at hq
  | cons a as => simp

theorem fillnaWith_ne_na {v c : Cell} (hv : v ≠ Cell.na) : fillnaWith v c ≠ Cell.na := by
  unfold fillnaWith
  by_cases hc : c = Cell.na <;> simp [hc, hv]

theorem natMax?_eq_none {l : List Nat} (h : natMax? l = none) : l = [] := by
  cases l with
  | nil => rfl
  | cons a as =>
    unfold natMax? at h
    cases has : natMax? as <;> rw [has] at h <;> simp at h

theorem natMax?_le {l : List Nat} {m : Nat} (h : natMax? l = some m) :
    ∀ n ∈ l, n ≤ m := by
  induction l generalizing m with
  | nil => intro n hn; simp at hn
  | cons a as ih =>
    intro n hn
    unfold natMax? at h
    cases has : natMax? as with
    | none =>
      rw [has] at h
      have hnil := natMax?_eq_none has
      subst hnil
      have hm : a = m := by simpa using h
      have hna : n = a := by simpa using hn
      omega
    | some k =>
      rw [has] at h
      have hm : Nat.max a k = m := by simpa using h
      subst hm
      rcases List.mem_cons.mp hn with rfl | hn'
      · exact Nat.le_max_left _ _
      · exact le_trans (ih has n hn') (Nat.le_max_right _ _)

theorem natMax?_mem {l : List Nat} {m : Nat} (h : natMax? l = some m) : m ∈ l := by
  induction l generalizing m with
  | nil => simp [natMax?] at h
  | cons a as ih =>
    unfold natMax? at h
    cases has : natMax? as with
    | none =>
      rw [has] at h
      have hm : a = m := by simpa using h
      subst hm
      exact List.mem_cons_self _ _
    | some k =>
      rw [has] at h
      have hm : Nat.max a k = m := by simpa using h
      subst hm
      by_cases hak : a ≤ k
      · have hmax : Nat.max a k = k := Nat.max_eq_right hak
        rw [hmax]
        exact List.mem_cons_of_mem _ (ih has)
      · have hmax : Nat.max a k = a := Nat.max_eq_left (by omega)
        rw [hmax]
        exact List.mem_cons_self _ _

theorem cellLe_trans (a b c : Cell) (hab : cellLe a b = true) (hbc : cellLe b c = true) :
    cellLe a c = true := by
  cases a <;> cases b <;> cases c <;>
    simp only [cellLe, cellRank, decide_eq_true_eq] at hab hbc ⊢ <;>
    first
      | trivial
      | omega
      | exact le_trans hab hbc

theorem cellLe_total (a b : Cell) : cellLe a b = true ∨ cellLe b a = true := by
  cases a <;> cases b <;>
    simp only [cellLe, cellRank, decide_eq_true_eq] <;>
    first
      | trivial
      | omega
      | exact le_total _ _

theorem sortValuesBy_rows_perm (df : DF) (c : String) :
    (sortValuesBy df c).rows.Perm df.rows := by
  unfold sortValuesBy
  exact List.perm_insertionSort _ _

theorem sortValuesBy_sorted (df : DF) (c : String) :
    (sortValuesBy df c).rows.Pairwise
      (fun r1 r2 => cellLe (cellAt df.cols c r1) (cellAt df.cols c r2) = true) := by
  unfold sortValuesBy
  haveI : IsTotal (List Cell)
      (fun r1 r2 => cellLe (cellAt df.cols c r1) (cellAt df.cols c r2) = true) :=
    ⟨fun _ _ => cellLe_total _ _⟩
  haveI : IsTrans (List Cell)
      (fun r1 r2 => cellLe (cellAt df.cols c r1) (cellAt df.cols c r2) = true) :=
    ⟨fun _ _ _ hab hbc => cellLe_trans _ _ _ hab hbc⟩
  exact List.sorted_insertionSort _ _

theorem pivot_table_val {df : DF} {index cols values : String} {s : Cell}
    {row : List (Cell × Cell)}
    (hs : (s, row) ∈ pivot_table df index cols values) :
    s ∈ df.getCol index ∧ ∀ m v, (m, v) ∈ row →
      m ∈ df.getCol cols ∧
      v = colMean ((df.rows.filter (fun r =>
          decide (cellAt df.cols index r = s) && decide (cellAt df.cols cols r = m))).map
        (cellAt df.cols values)) := by
  unfold pivot_table at hs
  obtain ⟨s', hs', he⟩ := List.mem_map.mp hs
  have hfst : s' = s := congrArg Prod.fst he
  subst hfst
  have hsnd := congrArg Prod.snd he
  simp only at hsnd
  constructor
  · exact List.mem_dedup.mp hs'
  · intro m v hmv
    rw [← hsnd] at hmv
    obtain ⟨m', hm', he'⟩ := List.mem_map.mp hmv
    have hm1 : m' = m := congrArg Prod.fst he'
    subst hm1
    have hm2 := congrArg Prod.snd he'
    simp only at hm2
    exact ⟨List.mem_dedup.mp hm', hm2.symm⟩

theorem pivot_table_covers {df : DF} {index cols values : String} {s : Cell}
    (hs : s ∈ df.getCol index) :
    ∃ row, (s, row) ∈ pivot_table df index cols values ∧
      ∀ m ∈ df.getCol cols, ∃ v, (m, v) ∈ row := by
  refine ⟨_, List.mem_map.mpr ⟨s, List.mem_dedup.mpr hs, rfl⟩, ?_⟩
  intro m hm
  exact ⟨_, List.mem_map.mpr ⟨m, List.mem_dedup.mpr hm, rfl⟩⟩

end DF

/-! ## Lemmas about the `clean_data` pipeline -/

namespace Main

open DF

theorem contains_iff_mem (l : List String) (c : String) :
    l.contains c = true ↔ c ∈ l := by
  simp [List.contains_iff_exists_mem_beq, beq_iff_eq]

theorem clean_data_eq_some_iff {pd : Cell → Option Nat} {df d : DF} :
    clean_data pd df = some d ↔
      (∀ c ∈ expected_columns, c ∈ (cleanStage1 df).cols) ∧
      d = cleanFillELPR (cleanFillEmployed (cleanDrop (cleanDates pd (cleanStage1 df)))) := by
  unfold clean_data
  by_cases hc : (expected_columns.all fun c => (cleanStage1 df).cols.contains c) = true
  · have hmem : ∀ c ∈ expected_columns, c ∈ (cleanStage1 df).cols := by
      intro c hcm
      exact (contains_iff_mem _ _).mp (List.all_eq_true.mp hc c hcm)
    rw [if_pos hc]
    constructor
    · intro h
      exact ⟨hmem, (Option.some.inj h).symm⟩
    · intro ⟨_, h⟩
      rw [h]
  · rw [if_neg hc]
    constructor
    · intro h
      exact absurd h (by simp)
    · intro ⟨hmem, _⟩
      exact absurd (List.all_eq_true.mpr
        (fun c hcm => (contains_iff_mem _ _).mpr (hmem c hcm))) hc

theorem clean_data_eq_none_iff {pd : Cell → Option Nat} {df : DF} :
    clean_data pd df = none ↔ ∃ c ∈ expected_columns, c ∉ (cleanStage1 df).cols := by
  unfold clean_data
  by_cases hc : (expected_columns.all fun c => (cleanStage1 df).cols.contains c) = true
  · have hmem : ∀ c ∈ expected_columns, c ∈ (cleanStage1 df).cols := by
      intro c hcm
      exact (contains_iff_mem _ _).mp (List.all_eq_true.mp hc c hcm)
    rw [if_pos hc]
    constructor
    · intro h
      exact absurd h (by simp)
    · intro ⟨c, hcm, hnm⟩
      exact absurd (hmem c hcm) hnm
  · rw [if_neg hc]
    constructor
    · intro _
      by_contra hno
      push_neg at hno
      exact hc (List.all_eq_true.mpr
        (fun c hcm => (contains_iff_mem _ _).mpr (hno c hcm)))
    · intro _
      rfl

theorem cleanPipeline_cols (pd : Cell → Option Nat) (df : DF) :
    (cleanFillELPR (cleanFillEmployed (cleanDrop (cleanDates pd df)))).cols = df.cols := by
  unfold cleanFillELPR cleanFillEmployed cleanDrop cleanDates
  rw [mapCol_cols, mapCol_cols, dropnaSubset_cols, mapCol_cols]

theorem clean_data_cols {pd : Cell → Option Nat} {df d : DF}
    (h : clean_data pd df = some d) : d.cols = (cleanStage1 df).cols := by
  rw [(clean_data_eq_some_iff.mp h).2, cleanPipeline_cols]

theorem cleanStage1_cols_getElem (df : DF) (i : Nat) :
    (cleanStage1 df).cols[i]? = (df.cols[i]?).map (fun c => renameLabel (strip c)) := by
  unfold cleanStage1 renameCols stripCols
  simp only [List.getElem?_map, Option.map_map]
  rfl

theorem wf_cleanStage1 {df : DF} (hwf : df.Wf) : (cleanStage1 df).Wf := by
  intro r hr
  unfold cleanStage1 renameCols stripCols
  simp only [List.length_map]
  exact hwf r hr

theorem coerceDate_cases (pd : Cell → Option Nat) (x : Cell) :
    (∃ n, coerceDate pd x = Cell.date n) ∨ coerceDate pd x = Cell.na := by
  unfold coerceDate
  cases pd x with
  | none => right; rfl
  | some n => left; exact ⟨n, rfl⟩

theorem latestRows_cols (df : DF) : (latestRows df).cols = df.cols := by
  unfold latestRows
  cases DF.dateMax df "Date" <;> rfl

theorem latestRows_mem {df : DF} {r : List Cell} (hr : r ∈ (latestRows df).rows) :
    r ∈ df.rows ∧ ∃ m, DF.dateMax df "Date" = some m ∧
      DF.cellAt df.cols "Date" r = Cell.date m := by
  unfold latestRows at hr
  cases hdm : DF.dateMax df "Date" with
  | none =>
    rw [hdm] at hr
    simp at hr
  | some m =>
    rw [hdm] at hr
    obtain ⟨hmem, hpred⟩ := List.mem_filter.mp hr
    exact ⟨hmem, m, rfl, of_decide_eq_true hpred⟩

theorem dateMax_spec {df : DF} {c : String} {m : Nat} (h : DF.dateMax df c = some m) :
    ∀ cell ∈ df.getCol c, ∀ k, cell = Cell.date k → k ≤ m := by
  intro cell hcell k hk
  unfold DF.dateMax at h
  apply DF.natMax?_le h
  exact List.mem_filterMap.mpr ⟨cell, hcell, by rw [hk]⟩

end Main

/-! ## Demonstration data used by the concrete witnesses -/

/-- A small date parser oracle standing in for `pd.to_datetime` in the
concrete instances. -/
def demoParse : Cell → Option Nat := fun c =>
  match c with
  | Cell.str "2020-01-31" => some 31
  | Cell.str "2020-02-29" => some 60
  | _ => none

/-- A small raw dataframe in the shape of the input CSV: a padded label,
the source `Region`/`Area` labels, one unparseable date, one missing
unemployment rate, and missing employment figures. -/
def demoRaw : DF :=
  { cols := [" Region", "Date", "Frequency", "Estimated Unemployment Rate (%)",
             "Estimated Employed", "Estimated Labour Participation Rate (%)", "Area"],
    rows := [
      [Cell.str "Punjab", Cell.str "2020-01-31", Cell.str "M", Cell.num 10,
       Cell.num 100, Cell.num 40, Cell.str "Rural"],
      [Cell.str "Punjab", Cell.str "2020-02-29", Cell.str "M", Cell.num 12,
       Cell.na, Cell.na, Cell.str "Urban"],
      [Cell.str "Kerala", Cell.str "bad-date", Cell.str "M", Cell.num 9,
       Cell.num 50, Cell.num 42, Cell.str "Rural"],
      [Cell.str "Kerala", Cell.str "2020-02-29", Cell.str "M", Cell.na,
       Cell.num 60, Cell.num 44, Cell.str "Urban"]] }

/-- The cleaned form of `demoRaw`: two surviving rows, renamed labels,
parsed dates, missing employment filled with 0 and missing participation
rate filled with the column mean 40. -/
def demoClean : DF :=
  { cols := ["State", "Date", "Frequency", "Estimated Unemployment Rate",
             "Estimated Employed", "Estimated Labour Participation Rate", "Region"],
    rows := [
      [Cell.str "Punjab", Cell.date 31, Cell.str "M", Cell.num 10,
       Cell.num 100, Cell.num 40, Cell.str "Rural"],
      [Cell.str "Punjab", Cell.date 60, Cell.str "M", Cell.num 12,
       Cell.num 0, Cell.num 40, Cell.str "Urban"]] }

/-- The first row of `demoClean`. -/
def demoRow0 : List Cell :=
  [Cell.str "Punjab", Cell.date 31, Cell.str "M", Cell.num 10,
   Cell.num 100, Cell.num 40, Cell.str "Rural"]

/-- A raw dataframe whose `Estimated Labour Participation Rate` column is
entirely missing: the mean of an empty set of observations is `NaN` and
`fillna` with `NaN` leaves the entries missing. -/
def cexRaw : DF :=
  { cols := ["Region", "Date", "Frequency", "Estimated Unemployment Rate (%)",
             "Estimated Employed", "Estimated Labour Participation Rate (%)", "Area"],
    rows := [[Cell.str "A", Cell.str "2020-01-31", Cell.str "M", Cell.num 5,
              Cell.na, Cell.na, Cell.str "Rural"]] }

/-- What `clean_data` returns on `cexRaw`: the participation-rate entry is
still missing. -/
def cexClean : DF :=
  { cols := ["State", "Date", "Frequency", "Estimated Unemployment Rate",
             "Estimated Employed", "Estimated Labour Participation Rate", "Region"],
    rows := [[Cell.str "A", Cell.date 31, Cell.str "M", Cell.num 5,
              Cell.num 0, Cell.na, Cell.str "Rural"]] }

/-! ## The claims -/

/-- C1: for every input dataframe, `clean_data` strips leading/trailing
whitespace from every column label and then renames the source `Region`
column to `State` and the source `Area` column to `Region` (rows are
untouched by this step), so in the cleaned data the former `Region` column
is labelled `State` and the former `Area` column is labelled `Region`;
the labels of a successful `clean_data` result are exactly these
transformed labels. -/
theorem clean_data_strips_and_renames (df : DF) (i : Nat) (c : String)
    (h : df.cols[i]? = some c) :
    (Main.cleanStage1 df).rows = df.rows ∧
    (Main.cleanStage1 df).cols[i]? = some (Main.renameLabel (Main.strip c)) ∧
    (Main.strip c = "Region" → (Main.cleanStage1 df).cols[i]? = some "State") ∧
    (Main.strip c = "Area" → (Main.cleanStage1 df).cols[i]? = some "Region") ∧
    (∀ pd d, Main.clean_data pd df = some d →
      d.cols[i]? = some (Main.renameLabel (Main.strip c))) := by
  have hcol : (Main.cleanStage1 df).cols[i]? = some (Main.renameLabel (Main.strip c)) := by
    rw [Main.cleanStage1_cols_getElem, h]
    rfl
  refine ⟨rfl, hcol, ?_, ?_, ?_⟩
  · intro hr
    rw [hcol, hr]
    decide
  · intro hr
    rw [hcol, hr]
    decide
  · intro pd d hd
    rw [Main.clean_data_cols hd]
    exact hcol

/-- Witness for C1: in the demonstration dataframe the padded source
label `" Region"` is stripped and renamed to `State`. -/
theorem clean_data_strips_and_renames_witness :
    (Main.cleanStage1 demoRaw).cols[0]? = some "State" :=
  (clean_data_strips_and_renames demoRaw 0 " Region" rfl).2.2.1 (by decide)

/-- C2: `clean_data` fails (returns `None`) exactly when one of the seven
expected columns is absent after stripping and renaming, and every
dataframe it returns carries all seven expected columns. -/
theorem clean_data_validates_columns (pd : Cell → Option Nat) (df : DF) :
    (Main.clean_data pd df = none ↔
      ∃ c ∈ Main.expected_columns, c ∉ (Main.cleanStage1 df).cols) ∧
    ∀ d, Main.clean_data pd df = some d → ∀ c ∈ Main.expected_columns, c ∈ d.cols := by
  refine ⟨Main.clean_data_eq_none_iff, ?_⟩
  intro d hd c hc
  rw [Main.clean_data_cols hd]
  exact (Main.clean_data_eq_some_iff.mp hd).1 c hc

unseal Rat.add Rat.mul Rat.inv in
/-- Witness for C2: the cleaned demonstration dataframe carries the
`State` column. -/
theorem clean_data_validates_columns_witness :
    "State" ∈ demoClean.cols :=
  (clean_data_validates_columns demoParse demoRaw).2 demoClean (by decide) "State" (by decide)

/-- C3 counterexample: the claim "the returned data contains no missing
values in either of these two columns" fails on a dataframe whose
`Estimated Labour Participation Rate` column has no non-missing value:
the column mean is missing, `fillna` fills nothing, and the returned data
still contains a missing participation-rate entry. -/
theorem clean_data_fill_policy_cex :
    Main.clean_data demoParse cexRaw = some cexClean ∧
    Cell.na ∈ cexClean.getCol "Estimated Labour Participation Rate" := by
  decide

/-- C3 (amended): in every dataframe returned by `clean_data`, each
missing `Estimated Employed` value has been replaced by 0 (so that column
has no missing values), and each missing `Estimated Labour Participation
Rate` value has been replaced by the mean of that column's non-missing
values after the row drops; when the column has at least one numeric
value, no missing value remains in it (if it has none, the mean is itself
missing and the missing entries remain). -/
theorem clean_data_fill_policy (pd : Cell → Option Nat) (df d : DF) (hwf : df.Wf)
    (h : Main.clean_data pd df = some d) :
    d.getCol "Estimated Employed" =
      ((Main.cleanDrop (Main.cleanDates pd (Main.cleanStage1 df))).getCol
        "Estimated Employed").map (DF.fillnaWith (Cell.num 0)) ∧
    d.getCol "Estimated Labour Participation Rate" =
      ((Main.cleanDrop (Main.cleanDates pd (Main.cleanStage1 df))).getCol
        "Estimated Labour Participation Rate").map
        (DF.fillnaWith (DF.colMean
          ((Main.cleanDrop (Main.cleanDates pd (Main.cleanStage1 df))).getCol
            "Estimated Labour Participation Rate"))) ∧
    (∀ cell ∈ d.getCol "Estimated Employed", cell ≠ Cell.na) ∧
    ((∃ q, Cell.num q ∈ d.getCol "Estimated Labour Participation Rate") →
      ∀ cell ∈ d.getCol "Estimated Labour Participation Rate", cell ≠ Cell.na) := by
  obtain ⟨hmem, hd⟩ := Main.clean_data_eq_some_iff.mp h
  have hw1 : (Main.cleanStage1 df).Wf := Main.wf_cleanStage1 hwf
  have hw2 : (Main.cleanDates pd (Main.cleanStage1 df)).Wf := by
    unfold Main.cleanDates
    exact DF.wf_mapCol hw1 _ _
  have hw3 : (Main.cleanDrop (Main.cleanDates pd (Main.cleanStage1 df))).Wf := by
    unfold Main.cleanDrop
    exact DF.wf_dropnaSubset hw2 _
  have hcols3 : (Main.cleanDrop (Main.cleanDates pd (Main.cleanStage1 df))).cols =
      (Main.cleanStage1 df).cols := by
    unfold Main.cleanDrop Main.cleanDates
    rw [DF.dropnaSubset_cols, DF.mapCol_cols]
  have hmemE : "Estimated Employed" ∈
      (Main.cleanDrop (Main.cleanDates pd (Main.cleanStage1 df))).cols := by
    rw [hcols3]
    exact hmem _ (by decide)
  have hmemL : "Estimated Labour Participation Rate" ∈
      (Main.cleanDrop (Main.cleanDates pd (Main.cleanStage1 df))).cols := by
    rw [hcols3]
    exact hmem _ (by decide)
  obtain ⟨iE, hiE⟩ := DF.idxOf_isSome_of_mem hmemE
  have hlenE : ∀ r ∈ (Main.cleanDrop (Main.cleanDates pd (Main.cleanStage1 df))).rows,
      iE < r.length := by
    intro r hr
    rw [hw3 r hr]
    exact DF.idxOf_lt_length hiE
  have hENeL : ("Estimated Labour Participation Rate" : String) ≠ "Estimated Employed" := by
    decide
  have heqE : d.getCol "Estimated Employed" =
      ((Main.cleanDrop (Main.cleanDates pd (Main.cleanStage1 df))).getCol
        "Estimated Employed").map (DF.fillnaWith (Cell.num 0)) := by
    rw [hd]
    unfold Main.cleanFillELPR
    rw [DF.getCol_mapCol_ne hENeL]
    unfold Main.cleanFillEmployed
    exact DF.getCol_mapCol_self hiE hlenE _
  have hw4 : (Main.cleanFillEmployed
      (Main.cleanDrop (Main.cleanDates pd (Main.cleanStage1 df)))).Wf := by
    unfold Main.cleanFillEmployed
    exact DF.wf_mapCol hw3 _ _
  have hcols4 : (Main.cleanFillEmployed
      (Main.cleanDrop (Main.cleanDates pd (Main.cleanStage1 df)))).cols =
      (Main.cleanDrop (Main.cleanDates pd (Main.cleanStage1 df))).cols := by
    unfold Main.cleanFillEmployed
    rw [DF.mapCol_cols]
  have hmemL4 : "Estimated Labour Participation Rate" ∈
      (Main.cleanFillEmployed
        (Main.cleanDrop (Main.cleanDates pd (Main.cleanStage1 df)))).cols := by
    rw [hcols4]
    exact hmemL
  obtain ⟨iL, hiL⟩ := DF.idxOf_isSome_of_mem hmemL4
  have hlenL : ∀ r ∈ (Main.cleanFillEmployed
      (Main.cleanDrop (Main.cleanDates pd (Main.cleanStage1 df)))).rows,
      iL < r.length := by
    intro r hr
    rw [hw4 r hr]
    exact DF.idxOf_lt_length hiL
  have hgc4 : (Main.cleanFillEmployed
      (Main.cleanDrop (Main.cleanDates pd (Main.cleanStage1 df)))).getCol
        "Estimated Labour Participation Rate" =
      (Main.cleanDrop (Main.cleanDates pd (Main.cleanStage1 df))).getCol
        "Estimated Labour Participation Rate" := by
    unfold Main.cleanFillEmployed
    exact DF.getCol_mapCol_ne (Ne.symm hENeL) _
  have heqL : d.getCol "Estimated Labour Participation Rate" =
      ((Main.cleanDrop (Main.cleanDates pd (Main.cleanStage1 df))).getCol
        "Estimated Labour Participation Rate").map
        (DF.fillnaWith (DF.colMean
          ((Main.cleanDrop (Main.cleanDates pd (Main.cleanStage1 df))).getCol
            "Estimated Labour Participation Rate"))) := by
    rw [hd]
    unfold Main.cleanFillELPR
    rw [DF.getCol_mapCol_self hiL hlenL, hgc4]
  refine ⟨heqE, heqL, ?_, ?_⟩
  · rw [heqE]
    intro cell hcell
    obtain ⟨x, _, rfl⟩ := List.mem_map.mp hcell
    exact DF.fillnaWith_ne_na (by decide)
  · intro ⟨q, hq⟩ cell hcell
    rw [heqL] at hq hcell
    by_cases hm : DF.colMean
        ((Main.cleanDrop (Main.cleanDates pd (Main.cleanStage1 df))).getCol
          "Estimated Labour Participation Rate") = Cell.na
    · have hid : ∀ x ∈ (Main.cleanDrop (Main.cleanDates pd (Main.cleanStage1 df))).getCol
          "Estimated Labour Participation Rate",
          DF.fillnaWith (DF.colMean
            ((Main.cleanDrop (Main.cleanDates pd (Main.cleanStage1 df))).getCol
              "Estimated Labour Participation Rate")) x = id x := by
        intro x _
        rw [hm]
        unfold DF.fillnaWith
        by_cases hx : x = Cell.na <;> simp [hx]
      rw [List.map_congr_left hid, List.map_id] at hq
      exact absurd hm (DF.colMean_ne_na_of_num hq)
    · obtain ⟨x, _, rfl⟩ := List.mem_map.mp hcell
      exact DF.fillnaWith_ne_na hm

unseal Rat.add Rat.mul Rat.inv in
/-- Witness for C3 (amended): the fill equation for `Estimated Employed`
on the demonstration data. -/
theorem clean_data_fill_policy_witness :
    demoClean.getCol "Estimated Employed" =
      ((Main.cleanDrop (Main.cleanDates demoParse (Main.cleanStage1 demoRaw))).getCol
        "Estimated Employed").map (DF.fillnaWith (Cell.num 0)) :=
  (clean_data_fill_policy demoParse demoRaw demoClean (by decide) (by decide)).1

/-- C4: `clean_data` coerces the `Date` column to datetime (unparseable
entries becoming missing) and then removes every row whose `State`,
`Date` or `Estimated Unemployment Rate` is missing, so every row it
returns has a successfully parsed date and present state and
unemployment-rate values. -/
theorem clean_data_coerces_dates_and_drops (pd : Cell → Option Nat) (df d : DF)
    (h : Main.clean_data pd df = some d) :
    ∀ r ∈ d.rows,
      (∃ n, DF.cellAt d.cols "Date" r = Cell.date n) ∧
      DF.cellAt d.cols "State" r ≠ Cell.na ∧
      DF.cellAt d.cols "Estimated Unemployment Rate" r ≠ Cell.na := by
  obtain ⟨hmem, hd⟩ := Main.clean_data_eq_some_iff.mp h
  have hcolsd : d.cols = (Main.cleanStage1 df).cols := Main.clean_data_cols h
  have hc2 : (Main.cleanDates pd (Main.cleanStage1 df)).cols =
      (Main.cleanStage1 df).cols := by
    unfold Main.cleanDates
    rw [DF.mapCol_cols]
  have hc3 : (Main.cleanDrop (Main.cleanDates pd (Main.cleanStage1 df))).cols =
      (Main.cleanStage1 df).cols := by
    unfold Main.cleanDrop
    rw [DF.dropnaSubset_cols, hc2]
  have hc4 : (Main.cleanFillEmployed
      (Main.cleanDrop (Main.cleanDates pd (Main.cleanStage1 df)))).cols =
      (Main.cleanStage1 df).cols := by
    unfold Main.cleanFillEmployed
    rw [DF.mapCol_cols, hc3]
  obtain ⟨iD, hiD⟩ := DF.idxOf_isSome_of_mem (hmem "Date" (by decide))
  obtain ⟨iS, hiS⟩ := DF.idxOf_isSome_of_mem (hmem "State" (by decide))
  obtain ⟨iU, hiU⟩ := DF.idxOf_isSome_of_mem
    (hmem "Estimated Unemployment Rate" (by decide))
  obtain ⟨iE, hiE⟩ := DF.idxOf_isSome_of_mem (hmem "Estimated Employed" (by decide))
  obtain ⟨iL, hiL⟩ := DF.idxOf_isSome_of_mem
    (hmem "Estimated Labour Participation Rate" (by decide))
  intro r hr
  rw [hd] at hr
  unfold Main.cleanFillELPR at hr
  have hiL4 : DF.idxOf (Main.cleanFillEmployed
      (Main.cleanDrop (Main.cleanDates pd (Main.cleanStage1 df)))).cols
      "Estimated Labour Participation Rate" = some iL := by
    rw [hc4]
    exact hiL
  obtain ⟨r4, hr4, he4⟩ := DF.mem_rows_mapCol hiL4 hr
  unfold Main.cleanFillEmployed at hr4
  have hiE3 : DF.idxOf (Main.cleanDrop
      (Main.cleanDates pd (Main.cleanStage1 df))).cols
      "Estimated Employed" = some iE := by
    rw [hc3]
    exact hiE
  obtain ⟨r3, hr3, he3⟩ := DF.mem_rows_mapCol hiE3 hr4
  unfold Main.cleanDrop DF.dropnaSubset at hr3
  obtain ⟨hr2mem, hpred⟩ := List.mem_filter.mp hr3
  have hnp : ∀ c ∈ (["State", "Date", "Estimated Unemployment Rate"] : List String),
      DF.cellAt (Main.cleanStage1 df).cols c r3 ≠ Cell.na := by
    intro c hc
    have hdec := of_decide_eq_true (List.all_eq_true.mp hpred c hc)
    rw [hc2] at hdec
    exact hdec
  have hstep : ∀ (c' : String) (j : Nat),
      DF.idxOf (Main.cleanStage1 df).cols c' = some j → j ≠ iL → j ≠ iE →
      DF.cellAt (Main.cleanStage1 df).cols c' r =
        DF.cellAt (Main.cleanStage1 df).cols c' r3 := by
    intro c' j hj hjL hjE
    rw [he4, he3, DF.cellAt_set_ne hiL hj hjL, DF.cellAt_set_ne hiE hj hjE]
  have hDL : iD ≠ iL := DF.idxOf_inj hiD hiL (by decide)
  have hDE : iD ≠ iE := DF.idxOf_inj hiD hiE (by decide)
  have hSL : iS ≠ iL := DF.idxOf_inj hiS hiL (by decide)
  have hSE : iS ≠ iE := DF.idxOf_inj hiS hiE (by decide)
  have hUL : iU ≠ iL := DF.idxOf_inj hiU hiL (by decide)
  have hUE : iU ≠ iE := DF.idxOf_inj hiU hiE (by decide)
  refine ⟨?_, ?_, ?_⟩
  · rw [hcolsd, hstep "Date" iD hiD hDL hDE]
    unfold Main.cleanDates at hr2mem
    obtain ⟨r2, _, he2⟩ := DF.mem_rows_mapCol hiD hr2mem
    have hne : DF.cellAt (Main.cleanStage1 df).cols "Date" r3 ≠ Cell.na :=
      hnp "Date" (by decide)
    rw [he2] at hne
    rcases DF.cellAt_set_self_cases hiD r2
        (Main.coerceDate pd (r2.getD iD Cell.na)) with hcase | hcase
    · rw [he2]
      rcases Main.coerceDate_cases pd (r2.getD iD Cell.na) with ⟨n, hn⟩ | hna
      · exact ⟨n, by rw [hcase, hn]⟩
      · exact absurd (hcase.trans hna) hne
    · exact absurd hcase hne
  · rw [hcolsd, hstep "State" iS hiS hSL hSE]
    exact hnp "State" (by decide)
  · rw [hcolsd, hstep "Estimated Unemployment Rate" iU hiU hUL hUE]
    exact hnp "Estimated Unemployment Rate" (by decide)

unseal Rat.add Rat.mul Rat.inv in
/-- Witness for C4: the first cleaned demonstration row has a parsed date
and present state and unemployment-rate entries. -/
theorem clean_data_coerces_dates_and_drops_witness :
    (∃ n, DF.cellAt demoClean.cols "Date" demoRow0 = Cell.date n) ∧
    DF.cellAt demoClean.cols "State" demoRow0 ≠ Cell.na ∧
    DF.cellAt demoClean.cols "Estimated Unemployment Rate" demoRow0 ≠ Cell.na :=
  clean_data_coerces_dates_and_drops demoParse demoRaw demoClean (by decide)
    demoRow0 (by decide)

/-- C5 counterexample: the claim "no operation of the program writes
persistent state to disk; the only file the program touches across runs
is the CSV dataset it reads" is false: the export-summary operation, with
data loaded and a chosen save path, writes a file that is not the input
CSV. -/
theorem program_touches_only_input_csv_cex :
    Effect.writeFile "summary.csv" demoClean ∈
      (Main.export_summary id (some demoClean) (some "summary.csv")).1 ∧
    "summary.csv" ≠ "Unemployment in India.csv" := by
  decide

/-- C5 (amended): the program keeps no state across runs — no operation
reads back anything it wrote — but it is not write-free: the summary and
plot operations write no file, and a write effect arises exactly from
`export_summary` with data loaded and a chosen path, writing the
`describe()` summary of the loaded data to that path. -/
theorem only_export_writes_files (describe corr : DF → DF) (toMonth : Cell → Cell)
    (ad : Option DF) (selR selS : String) (p : Option String) :
    (∀ e ∈ (Main.show_summary describe ad).1, ∀ q c, e ≠ Effect.writeFile q c) ∧
    (∀ e ∈ (Main.plot_unemployment_by_region ad selR).1, ∀ q c, e ≠ Effect.writeFile q c) ∧
    (∀ e ∈ (Main.plot_latest_unemployment_by_state ad selS).1, ∀ q c, e ≠ Effect.writeFile q c) ∧
    (∀ e ∈ (Main.plot_monthly_unemployment_heatmap toMonth ad).1, ∀ q c, e ≠ Effect.writeFile q c) ∧
    (∀ e ∈ (Main.plot_correlation_matrix corr ad).1, ∀ q c, e ≠ Effect.writeFile q c) ∧
    (∀ e ∈ (Main.export_summary describe ad p).1, ∀ q c, e = Effect.writeFile q c →
      ∃ d, ad = some d ∧ p = some q ∧ c = describe d) := by
  cases ad with
  | none =>
    refine ⟨?_, ?_, ?_, ?_, ?_, ?_⟩ <;>
      (intro e he
       simp only [Main.show_summary, Main.plot_unemployment_by_region,
         Main.plot_latest_unemployment_by_state, Main.plot_monthly_unemployment_heatmap,
         Main.plot_correlation_matrix, Main.export_summary,
         List.mem_singleton] at he
       subst he
       intro q c hqc
       simp at hqc)
  | some d =>
    refine ⟨?_, ?_, ?_, ?_, ?_, ?_⟩
    · intro e he
      simp only [Main.show_summary, List.mem_singleton] at he
      subst he
      intro q c hqc
      simp at hqc
    · intro e he
      simp only [Main.plot_unemployment_by_region, List.mem_singleton] at he
      subst he
      intro q c hqc
      simp at hqc
    · intro e he
      simp only [Main.plot_latest_unemployment_by_state, List.mem_singleton] at he
      subst he
      intro q c hqc
      simp at hqc
    · intro e he
      simp only [Main.plot_monthly_unemployment_heatmap, List.mem_singleton] at he
      subst he
      intro q c hqc
      simp at hqc
    · intro e he
      simp only [Main.plot_correlation_matrix, List.mem_singleton] at he
      subst he
      intro q c hqc
      simp at hqc
    · intro e he q c hqc
      cases p with
      | none => simp [Main.export_summary] at he
      | some q' =>
        simp only [Main.export_summary, List.mem_cons, List.not_mem_nil, or_false] at he
        rcases he with he | he
        · rw [he] at hqc
          injection hqc with h1 h2
          subst h1
          subst h2
          exact ⟨d, rfl, rfl, rfl⟩
        · rw [he] at hqc
          simp at hqc

/-- Witness for C5 (amended): a write effect of `export_summary` on the
demonstration data names the chosen path and the summary content. -/
theorem only_export_writes_files_witness :
    ∃ d, (some demoClean : Option DF) = some d ∧
      (some "summary.csv" : Option String) = some "summary.csv" ∧
      demoClean = id d :=
  (only_export_writes_files id id id (some demoClean) "All" "All"
      (some "summary.csv")).2.2.2.2.2
    (Effect.writeFile "summary.csv" demoClean) (by decide) "summary.csv" demoClean
    (by decide)

/-- C6: in the unemployment-over-time line chart, selecting `All` renders
every row of the loaded data, and selecting any other region renders
exactly the rows whose `Region` cell equals the selected value. -/
theorem region_plot_filters_by_selection (df : DF) (sel : String) :
    Main.plot_unemployment_by_region (some df) "All" =
      ([Effect.renderPlot (Plot.line ("Unemployment Rate Over Time by Region: " ++ "All")
        df.rows)], some df) ∧
    (sel ≠ "All" →
      Main.plot_unemployment_by_region (some df) sel =
        ([Effect.renderPlot (Plot.line ("Unemployment Rate Over Time by Region: " ++ sel)
          (df.rows.filter (fun r => decide (DF.cellAt df.cols "Region" r = Cell.str sel))))],
          some df) ∧
      ∀ r, r ∈ (Main.regionFilter df sel).rows ↔
        (r ∈ df.rows ∧ DF.cellAt df.cols "Region" r = Cell.str sel)) := by
  constructor
  · simp [Main.plot_unemployment_by_region, Main.regionFilter]
  · intro hsel
    constructor
    · simp [Main.plot_unemployment_by_region, Main.regionFilter, hsel, DF.filterEq]
    · intro r
      simp [Main.regionFilter, hsel, DF.filterEq, List.mem_filter]

/-- Witness for C6: filtering the demonstration data to the `Rural`
region. -/
theorem region_plot_filters_by_selection_witness :
    Main.plot_unemployment_by_region (some demoClean) "Rural" =
      ([Effect.renderPlot (Plot.line ("Unemployment Rate Over Time by Region: " ++ "Rural")
        (demoClean.rows.filter
          (fun r => decide (DF.cellAt demoClean.cols "Region" r = Cell.str "Rural"))))],
        some demoClean) :=
  ((region_plot_filters_by_selection demoClean "Rural").2 (by decide)).1

/-- C7: with data loaded and a chosen save path, the CSV export writes
the `describe()` summary of the loaded data — not the raw rows — to that
path; a cancelled dialog writes nothing and changes nothing. -/
theorem export_summary_writes_describe (describe : DF → DF) (df : DF) (p : String) :
    Main.export_summary describe (some df) (some p) =
      ([Effect.writeFile p (describe df),
        Effect.showInfo "Export" ("Summary exported to " ++ p)], some df) ∧
    Main.export_summary describe (some df) none = ([], some df) :=
  ⟨rfl, rfl⟩

/-- C9: every data-dependent operation checks for loaded data first: with
`app_data = None` each of the six handlers shows the `No data loaded.`
warning and performs no plotting, no export and no state change. -/
theorem handlers_warn_without_data (describe corr : DF → DF) (toMonth : Cell → Cell)
    (selR selS : String) (p : Option String) :
    Main.show_summary describe none =
      ([Effect.showWarning "Warning" "No data loaded."], none) ∧
    Main.plot_unemployment_by_region none selR =
      ([Effect.showWarning "Warning" "No data loaded."], none) ∧
    Main.plot_latest_unemployment_by_state none selS =
      ([Effect.showWarning "Warning" "No data loaded."], none) ∧
    Main.plot_monthly_unemployment_heatmap toMonth none =
      ([Effect.showWarning "Warning" "No data loaded."], none) ∧
    Main.plot_correlation_matrix corr none =
      ([Effect.showWarning "Warning" "No data loaded."], none) ∧
    Main.export_summary describe none p =
      ([Effect.showWarning "Warning" "No data loaded."], none) :=
  ⟨rfl, rfl, rfl, rfl, rfl, rfl⟩

/-- A small month-extraction oracle standing in for
`Series.dt.to_period("M")` in the concrete instances. -/
def demoToMonth : Cell → Cell := fun c =>
  match c with
  | Cell.date n => Cell.date (n / 31)
  | _ => Cell.na

/-- C8: the monthly heatmap renders a single State-by-Month pivot of
`Estimated Unemployment Rate` computed on a copy of the loaded data (the
application state is returned unchanged); every pivot cell is the mean of
the matching rows' values, and every state/month value of the monthly
data is covered by the table. -/
theorem heatmap_pivots_by_mean (toMonth : Cell → Cell) (df : DF) :
    Main.plot_monthly_unemployment_heatmap toMonth (some df) =
      ([Effect.renderPlot (Plot.heatmap "📅 Monthly Unemployment Rate by State (Annotated)"
        (DF.pivot_table (Main.withMonth toMonth df) "State" "Month"
          "Estimated Unemployment Rate"))], some df) ∧
    (∀ s row, (s, row) ∈ DF.pivot_table (Main.withMonth toMonth df) "State" "Month"
        "Estimated Unemployment Rate" →
      s ∈ (Main.withMonth toMonth df).getCol "State" ∧
      ∀ m v, (m, v) ∈ row →
        m ∈ (Main.withMonth toMonth df).getCol "Month" ∧
        v = DF.colMean (((Main.withMonth toMonth df).rows.filter (fun r =>
            decide (DF.cellAt (Main.withMonth toMonth df).cols "State" r = s) &&
            decide (DF.cellAt (Main.withMonth toMonth df).cols "Month" r = m))).map
          (DF.cellAt (Main.withMonth toMonth df).cols "Estimated Unemployment Rate"))) ∧
    (∀ s ∈ (Main.withMonth toMonth df).getCol "State",
      ∃ row, (s, row) ∈ DF.pivot_table (Main.withMonth toMonth df) "State" "Month"
          "Estimated Unemployment Rate" ∧
        ∀ m ∈ (Main.withMonth toMonth df).getCol "Month", ∃ v, (m, v) ∈ row) := by
  refine ⟨rfl, ?_, ?_⟩
  · intro s row hs
    exact DF.pivot_table_val hs
  · intro s hs
    exact DF.pivot_table_covers hs

unseal Rat.add Rat.mul Rat.inv in
/-- Witness for C8: on the demonstration data both rows fall in the same
state and month, and the pivot cell is the mean 11 of their rates 10 and
12. -/
theorem heatmap_pivots_by_mean_witness :
    Cell.date 1 ∈ (Main.withMonth demoToMonth demoClean).getCol "Month" ∧
    Cell.num 11 = DF.colMean
      (((Main.withMonth demoToMonth demoClean).rows.filter (fun r =>
          decide (DF.cellAt (Main.withMonth demoToMonth demoClean).cols "State" r =
            Cell.str "Punjab") &&
          decide (DF.cellAt (Main.withMonth demoToMonth demoClean).cols "Month" r =
            Cell.date 1))).map
        (DF.cellAt (Main.withMonth demoToMonth demoClean).cols
          "Estimated Unemployment Rate")) :=
  ((heatmap_pivots_by_mean demoToMonth demoClean).2.1 (Cell.str "Punjab")
      [(Cell.date 1, Cell.num 11)] (by decide)).2 (Cell.date 1) (Cell.num 11) (by decide)

/-- C10: the latest-unemployment bar chart renders exactly the rows
carrying the greatest date of the whole dataset (state-filtered unless
`All` is selected), as a permutation sorted ascending by the unemployment
rate. -/
theorem latest_bar_chart_spec (df : DF) (sel : String) :
    Main.plot_latest_unemployment_by_state (some df) sel =
      ([Effect.renderPlot (Plot.bar ("Latest Unemployment Rate by State: " ++ sel)
        (DF.sortValuesBy (if sel = "All" then Main.latestRows df
          else DF.filterEq (Main.latestRows df) "State" sel)
          "Estimated Unemployment Rate").rows)], some df) ∧
    (DF.sortValuesBy (if sel = "All" then Main.latestRows df
        else DF.filterEq (Main.latestRows df) "State" sel)
        "Estimated Unemployment Rate").rows.Perm
      (if sel = "All" then Main.latestRows df
        else DF.filterEq (Main.latestRows df) "State" sel).rows ∧
    (DF.sortValuesBy (if sel = "All" then Main.latestRows df
        else DF.filterEq (Main.latestRows df) "State" sel)
        "Estimated Unemployment Rate").rows.Pairwise (fun r1 r2 =>
      DF.cellLe (DF.cellAt df.cols "Estimated Unemployment Rate" r1)
        (DF.cellAt df.cols "Estimated Unemployment Rate" r2) = true) ∧
    ∀ r ∈ (DF.sortValuesBy (if sel = "All" then Main.latestRows df
        else DF.filterEq (Main.latestRows df) "State" sel)
        "Estimated Unemployment Rate").rows,
      r ∈ df.rows ∧
      (∃ m, DF.dateMax df "Date" = some m ∧ DF.cellAt df.cols "Date" r = Cell.date m ∧
        ∀ cell ∈ df.getCol "Date", ∀ k, cell = Cell.date k → k ≤ m) ∧
      (sel ≠ "All" → DF.cellAt df.cols "State" r = Cell.str sel) := by
  have hFcols : (if sel = "All" then Main.latestRows df
      else DF.filterEq (Main.latestRows df) "State" sel).cols = df.cols := by
    by_cases hsel : sel = "All"
    · rw [if_pos hsel, Main.latestRows_cols]
    · rw [if_neg hsel, DF.filterEq_cols, Main.latestRows_cols]
  refine ⟨rfl, DF.sortValuesBy_rows_perm _ _, ?_, ?_⟩
  · rw [← hFcols]
    exact DF.sortValuesBy_sorted _ _
  · intro r hr
    have hrF : r ∈ (if sel = "All" then Main.latestRows df
        else DF.filterEq (Main.latestRows df) "State" sel).rows :=
      ((DF.sortValuesBy_rows_perm _ _).mem_iff).mp hr
    have hlat : r ∈ (Main.latestRows df).rows ∧
        (sel ≠ "All" → DF.cellAt df.cols "State" r = Cell.str sel) := by
      by_cases hsel : sel = "All"
      · rw [if_pos hsel] at hrF
        exact ⟨hrF, fun hne => absurd hsel hne⟩
      · rw [if_neg hsel] at hrF
        unfold DF.filterEq at hrF
        obtain ⟨hm, hp⟩ := List.mem_filter.mp hrF
        have hcell := of_decide_eq_true hp
        rw [Main.latestRows_cols] at hcell
        exact ⟨hm, fun _ => hcell⟩
    obtain ⟨hrlat, hstate⟩ := hlat
    obtain ⟨hrdf, m, hdm, hdate⟩ := Main.latestRows_mem hrlat
    exact ⟨hrdf, ⟨m, hdm, hdate, Main.dateMax_spec hdm⟩, hstate⟩

/-- Witness for C10: the rendered demonstration bars are sorted ascending
by the unemployment rate. -/
theorem latest_bar_chart_spec_witness :
    (DF.sortValuesBy (if "All" = "All" then Main.latestRows demoClean
        else DF.filterEq (Main.latestRows demoClean) "State" "All")
        "Estimated Unemployment Rate").rows.Pairwise (fun r1 r2 =>
      DF.cellLe (DF.cellAt demoClean.cols "Estimated Unemployment Rate" r1)
        (DF.cellAt demoClean.cols "Estimated Unemployment Rate" r2) = true) :=
  (latest_bar_chart_spec demoClean "All").2.2.1

